import Mathlib

/-!
# Verification of the cemu emulation session core

Shallow embedding of the emulation-session core of the cemu repository:
`src/cemu/emulator.py` (the `Emulator` session, its state machine, register
cache, memory sections, setup/teardown) and `src/cemu/ui/main.py`
(the `EmulationRunner` execution driver).

Modelling conventions:
* The unicorn engine (`unicorn.Uc`) is external; it is embedded as a `VM`
  record of observable engine state (installed hooks, mapped regions,
  memory writes, register bank).  Its blocking run primitive `emu_start`
  is a parameter (`EngineRun`) supplied by each theorem.
* Python exceptions are `EmuError` values threaded in result records; a
  function that lets an exception escape returns `err = some _` together
  with the partially mutated session, exactly as the Python object would
  be left.
* Observable side effects (hook installation, memory mapping, popups,
  observer callbacks, the runner invocation) are recorded as `Event`s.
* `dbg`/`info`/`warn` log lines are not modelled; `error(...)` log calls
  are kept as `Event.logError` where a code path is distinguished only
  by them.
* Register names are assumed distinct in an architecture's register file,
  matching the Python `dict` keyed by name.
-/

set_option autoImplicit false

namespace Cemu

/-- Association-list lookup, first match wins — the model of Python `dict`
reads (`d[k]`, `k in d`). -/
def assocGet {α β : Type} [DecidableEq α] : List (α × β) → α → Option β
  | [], _ => none
  | (a, b) :: t, k => if a = k then some b else assocGet t k

/-- Association-list store: replace the first entry with the key in place,
or append — the model of Python `dict` writes (`d[k] = v`). -/
def assocSet {α β : Type} [DecidableEq α] : List (α × β) → α → β → List (α × β)
  | [], k, v => [(k, v)]
  | (a, b) :: t, k, v => if a = k then (a, v) :: t else (a, b) :: assocSet t k v

/-- `EmulatorState` from `src/cemu/emulator.py` (`IntEnum`, same order). -/
inductive EmulatorState where
  | INVALID
  | STARTING
  | NOT_RUNNING
  | IDLE
  | RUNNING
  | TEARDOWN
  | FINISHED
deriving DecidableEq

/-- Modelled from the spec: the `{READ, WRITE, EXEC}` permission flag set of a
memory section (the `MemorySection` class lives in `src/cemu/memory.py`, which
is not part of the provided sources). -/
structure Permission where
  read : Bool
  write : Bool
  exec : Bool
deriving DecidableEq

/-- Modelled from the spec: the unicorn encoding of a permission flag set
(`section.permission.unicorn()` in `__populate_memory`). -/
def Permission.unicorn (p : Permission) : Nat :=
  (if p.read then 1 else 0) + (if p.write then 2 else 0) + (if p.exec then 4 else 0)

/-- Modelled from the spec: `MemorySection` — name, address, size, permission
flag set, optional initial content (`src/cemu/memory.py` is not in the
provided sources; only the fields used by `emulator.py` are embedded). -/
structure MemorySection where
  name : String
  address : Nat
  size : Nat
  permission : Permission
  content : Option (List Nat) := none
deriving DecidableEq

/-- `cemu.const.MEMORY_TEXT_SECTION_NAME` (value per the spec's reserved
section names). -/
def MEMORY_TEXT_SECTION_NAME : String := "text"

/-- `cemu.const.MEMORY_DATA_SECTION_NAME`. -/
def MEMORY_DATA_SECTION_NAME : String := "data"

/-- `cemu.const.MEMORY_STACK_SECTION_NAME`. -/
def MEMORY_STACK_SECTION_NAME : String := "stack"

/-- `MEMORY_MAP_DEFAULT_LAYOUT` from `src/cemu/emulator.py` lines 46-50:
text at 0x4000 (4 KiB, READ|EXEC), data at 0x5000 (4 KiB, READ|WRITE),
stack at 0x6000 (16 KiB, READ|WRITE). -/
def MEMORY_MAP_DEFAULT_LAYOUT : List MemorySection :=
  [ ⟨MEMORY_TEXT_SECTION_NAME, 0x00004000, 0x1000, ⟨true, false, true⟩, none⟩,
    ⟨MEMORY_DATA_SECTION_NAME, 0x00005000, 0x1000, ⟨true, true, false⟩, none⟩,
    ⟨MEMORY_STACK_SECTION_NAME, 0x00006000, 0x4000, ⟨true, true, false⟩, none⟩ ]

/-- Observable state of the embedded CPU-emulation engine (`unicorn.Uc`):
installed hooks, mapped regions `(address, size, perms)`, the sequence of
`mem_write` calls, and the register bank keyed by engine register id. -/
structure VM where
  hooks : List String := []
  mapped : List (Nat × Nat × Nat) := []
  mem : List (Nat × List Nat) := []
  regs : List (Nat × Nat) := []
deriving DecidableEq

/-- Engine `reg_read`: registers of a fresh engine read as zero. -/
def VM.regRead (vm : VM) (rid : Nat) : Nat :=
  (assocGet vm.regs rid).getD 0

/-- Engine `reg_write`. -/
def VM.regWrite (vm : VM) (rid v : Nat) : VM :=
  { vm with regs := assocSet vm.regs rid v }

/-- Engine `mem_map`. -/
def VM.memMapOp (vm : VM) (address size perms : Nat) : VM :=
  { vm with mapped := vm.mapped ++ [(address, size, perms)] }

/-- Engine `mem_write`. -/
def VM.memWriteOp (vm : VM) (address : Nat) (data : List Nat) : VM :=
  { vm with mem := vm.mem ++ [(address, data)] }

/-- Engine `mem_unmap`. -/
def VM.memUnmapOp (vm : VM) (address size : Nat) : VM :=
  { vm with mapped := vm.mapped.filter (fun m => !(m.1 = address && m.2.1 = size)) }

/-- A single memory byte as the engine would read it back: the last
`mem_write` covering the address wins, unwritten bytes read as zero. -/
def VM.readByte (vm : VM) (a : Nat) : Nat :=
  vm.mem.foldl
    (fun acc w => if w.1 ≤ a ∧ a < w.1 + w.2.length then w.2.getD (a - w.1) acc else acc) 0

/-- Engine `mem_read`. -/
def VM.memRead (vm : VM) (address size : Nat) : List Nat :=
  (List.range size).map (fun i => vm.readByte (address + i))

/-- One assembled/decoded instruction, per the architecture backend's
`Instruction` (its class is outside the provided sources): its anchor
address and raw bytes. -/
structure Insn where
  address : Nat
  bytes : List Nat
deriving DecidableEq

/-- Modelled from the spec: `Instruction.end`, "the instruction's end
offset" used as the step-mode stop address (§4.4). -/
def Insn.endAddress (i : Insn) : Nat := i.address + i.bytes.length

/-- The architecture backend (external collaborator, spec §6): register
name set, pc/sp names, symbolic-name-to-engine-id map, x86 flags, the
selector-only pseudo-register names and descriptor synthesis used by
`__populate_vm_registers` on x86-32 (its `SegmentDescriptor` lives in
`src/cemu/arch/x86.py`, not in the provided sources), the fresh-engine
factory `uc`, the assembler and the one-instruction disassembler. -/
structure Architecture where
  registers : List String
  pc : String
  sp : String
  ucRegister : String → Nat
  isX86 : Bool
  isX86_32 : Bool
  selectorRegisters : List String
  descrCS : Nat → Nat
  descrDS : Nat → Nat
  descrSS : Nat → Nat
  uc : VM
  assemble : String → Nat → Except String (List Insn)
  disasm1 : List Nat → Nat → Option Insn

/-- `cemu.arch.disassemble(code, 1, addr)` as used by
`Emulator.next_instruction`: the first decoded instruction, if any. -/
def nextInstruction (arch : Architecture) (code : List Nat) (addr : Nat) : Option Insn :=
  arch.disasm1 code addr

/-- The register cache contents (`EmulationRegisters.data`): register
name to last-known value. -/
def RegCache : Type := List (String × Nat)

instance : DecidableEq RegCache := by
  unfold RegCache
  infer_instance

/-- Python exceptions that can escape the embedded operations. -/
inductive EmuError where
  | runtimeError (msg : String)
  | missingRequiredSection (name : String)
  | keyError (name : String)
  | valueError (name : String)
  | assertionError (msg : String)
deriving DecidableEq

/-- Observable side effects of the session core. -/
inductive Event where
  | hookAdd (kind : String)
  | memMap (address size perms : Nat)
  | memWrite (address : Nat) (data : List Nat)
  | memUnmap (address size : Nat)
  | regWrite (rid v : Nat)
  | logError (msg : String)
  | setupErrorPopup (err : EmuError)
  | runErrorPopup (code pc sp : Nat)
  | callbackFired (target : EmulatorState) (id : Nat)
  | runnerInvoked
  | emuStartCalled (startAddress stopAddress : Nat)
deriving DecidableEq

/-- The emulation session (`Emulator`).  `callbacks` is the per-state
observer registry (`__state_change_callbacks`), with observers named by
opaque ids; `hasRunner` models `threaded_runner` being set to a runnable
object.  The `widget` field and the execution `lock` are not modelled
(the lock only serializes the blocking run call). -/
structure Emulator where
  use_step_mode : Bool
  state : EmulatorState
  callbacks : List (EmulatorState × List Nat)
  hasRunner : Bool
  vm : Option VM
  code : List Nat
  codelines : String
  sections : List MemorySection
  registers : RegCache
  start_addr : Nat
  end_addr : Int
deriving DecidableEq

/-- The observer list registered for one state. -/
def callbacksFor (cbs : List (EmulatorState × List Nat)) (st : EmulatorState) : List Nat :=
  (assocGet cbs st).getD []

/-- `Emulator.is_running` (property): state is `RUNNING` or `IDLE`. -/
def Emulator.is_running (e : Emulator) : Bool :=
  decide (e.state = EmulatorState.RUNNING ∨ e.state = EmulatorState.IDLE)

/-- `Emulator.get_register_value`: `None` without an engine, else the
engine's value for the symbolic register. -/
def Emulator.get_register_value (e : Emulator) (arch : Architecture) (regname : String) :
    Option Nat :=
  match e.vm with
  | none => none
  | some vm => some (vm.regRead (arch.ucRegister regname))

/-- Result of one register-cache read (`EmulationRegisters.__getitem__`):
the value returned (`none` models `KeyError`), the cache afterwards, and
whether the engine was consulted. -/
structure RegReadResult where
  value : Option Nat
  cache : RegCache
  engineTouched : Bool
deriving DecidableEq

/-- `EmulationRegisters.__getitem__`: when the owning session is in
`RUNNING`/`IDLE`/`FINISHED` and the key is known, refresh the entry from
the live engine (`get_register_value`, a no-op returning `None` when no
engine exists) before returning the stored value; otherwise a plain
dictionary read. -/
def Emulator.registersGetitem (e : Emulator) (arch : Architecture) (key : String) :
    RegReadResult :=
  if (e.state = EmulatorState.RUNNING ∨ e.state = EmulatorState.IDLE ∨
      e.state = EmulatorState.FINISHED) ∧ (assocGet e.registers key).isSome = true then
    match e.get_register_value arch key with
    | some val =>
      let c2 := assocSet e.registers key val
      ⟨assocGet c2 key, c2, true⟩
    | none => ⟨assocGet e.registers key, e.registers, false⟩
  else ⟨assocGet e.registers key, e.registers, false⟩

/-- `EmulationRegisters.__setitem__` — not overridden in the source, so it
is `UserDict`'s plain store for any key. -/
def EmulationRegisters.setitem (c : RegCache) (k : String) (v : Nat) : RegCache :=
  assocSet c k v

/-- `Emulator.pc()`: read the architecture's pc register through the
refreshing cache getter. -/
def Emulator.pcRead (e : Emulator) (arch : Architecture) : RegReadResult :=
  e.registersGetitem arch arch.pc

/-- `Emulator.sp()`: read the architecture's sp register through the
refreshing cache getter. -/
def Emulator.spRead (e : Emulator) (arch : Architecture) : RegReadResult :=
  e.registersGetitem arch arch.sp

/-- `Emulator.find_section` restricted to a section list: exactly one
match required; no match raises `KeyError`, several raise `ValueError`. -/
def findSectionIn (sections : List MemorySection) (name : String) :
    Except EmuError MemorySection :=
  match sections.filter (fun s => s.name = name) with
  | [] => .error (.keyError name)
  | [s] => .ok s
  | _ :: _ :: _ => .error (.valueError name)

/-- `Emulator.find_section`. -/
def Emulator.find_section (e : Emulator) (name : String) : Except EmuError MemorySection :=
  findSectionIn e.sections name

instance {ε α : Type} [DecidableEq ε] [DecidableEq α] : DecidableEq (Except ε α) :=
  fun a b =>
    match a, b with
    | .ok x, .ok y => decidable_of_iff (x = y) (by simp)
    | .error x, .error y => decidable_of_iff (x = y) (by simp)
    | .ok _, .error _ => .isFalse (by simp)
    | .error _, .ok _ => .isFalse (by simp)

/-- Result of a setup sub-step: the (possibly partially mutated) session,
the events, and the outcome — `.ok b` for a Boolean return, `.error er`
for an escaping exception. -/
structure SubResult where
  emu : Emulator
  events : List Event
  outcome : Except EmuError Bool
deriving DecidableEq

/-- Result of a whole operation: the session, the events, and `some er`
when a Python exception escapes to the caller. -/
structure EmuResult where
  emu : Emulator
  events : List Event
  err : Option EmuError
deriving DecidableEq

/-- The section-mapping loop of `__populate_memory`: `mem_map` every
section at its address with its permissions, then write its initial
content right after mapping, if any. -/
def mapSections (vm : VM) (sections : List MemorySection) : VM × List Event :=
  match sections with
  | [] => (vm, [])
  | sec :: rest =>
    let vm1 := vm.memMapOp sec.address sec.size sec.permission.unicorn
    let ev1 : List Event := [Event.memMap sec.address sec.size sec.permission.unicorn]
    let (vm2, ev2) :=
      match sec.content with
      | some data => (vm1.memWriteOp sec.address data, ev1 ++ [Event.memWrite sec.address data])
      | none => (vm1, ev1)
    let (vm3, ev3) := mapSections vm2 rest
    (vm3, ev2 ++ ev3)

/-- `Emulator.__populate_memory`: requires an engine and at least one
section; maps every section, then records the FIRST section's address as
the provisional `start_addr` and sets `end_addr` to `-1`. -/
def populateMemory (e : Emulator) : SubResult :=
  match e.vm with
  | none => ⟨e, [Event.logError "VM is not initalized"], .ok false⟩
  | some vm =>
    if e.sections.length < 1 then ⟨e, [Event.logError "No section declared"], .ok false⟩
    else
      let (vm2, evs) := mapSections vm e.sections
      ⟨{ e with
          vm := some vm2,
          start_addr := (e.sections.headD ⟨"", 0, 0, ⟨false, false, false⟩, none⟩).address,
          end_addr := -1 }, evs, .ok true⟩

/-- The pc-seeding step of `__populate_vm_registers`: if the cached pc is
zero, default it to the text section's base address (`find_section` may
raise `KeyError` out of the whole setup). -/
def seedPc (e : Emulator) (arch : Architecture) : Emulator × Option EmuError :=
  let r := e.registersGetitem arch arch.pc
  let e1 := { e with registers := r.cache }
  match r.value with
  | none => (e1, some (.keyError arch.pc))
  | some pcv =>
    if pcv = 0 then
      match findSectionIn e1.sections MEMORY_TEXT_SECTION_NAME with
      | .error er => (e1, some er)
      | .ok sec =>
        ({ e1 with registers := assocSet e1.registers arch.pc sec.address }, none)
    else (e1, none)

/-- The sp-seeding step of `__populate_vm_registers`: if the cached sp is
zero, default it to the midpoint of the stack section. -/
def seedSp (e : Emulator) (arch : Architecture) : Emulator × Option EmuError :=
  let r := e.registersGetitem arch arch.sp
  let e1 := { e with registers := r.cache }
  match r.value with
  | none => (e1, some (.keyError arch.sp))
  | some spv =>
    if spv = 0 then
      match findSectionIn e1.sections MEMORY_STACK_SECTION_NAME with
      | .error er => (e1, some er)
      | .ok sec =>
        ({ e1 with registers := assocSet e1.registers arch.sp (sec.address + sec.size / 2) },
         none)
    else (e1, none)

/-- The x86-32 selector synthesis of `__populate_vm_registers`: CS/DS/SS
descriptors from the text/data/stack section addresses, then GS/FS/ES
zeroed; skipped entirely off x86-32. -/
def seedSelectors (e : Emulator) (arch : Architecture) : Emulator × Option EmuError :=
  if arch.isX86_32 then
    match findSectionIn e.sections MEMORY_TEXT_SECTION_NAME with
    | .error er => (e, some er)
    | .ok textSec =>
      let e1 := { e with registers := assocSet e.registers "CS" (arch.descrCS textSec.address) }
      match findSectionIn e1.sections MEMORY_DATA_SECTION_NAME with
      | .error er => (e1, some er)
      | .ok dataSec =>
        let e2 :=
          { e1 with registers := assocSet e1.registers "DS" (arch.descrDS dataSec.address) }
        match findSectionIn e2.sections MEMORY_STACK_SECTION_NAME with
        | .error er => (e2, some er)
        | .ok stackSec =>
          let e3 :=
            { e2 with registers := assocSet e2.registers "SS" (arch.descrSS stackSec.address) }
          ({ e3 with registers :=
              assocSet (assocSet (assocSet e3.registers "GS" 0) "FS" 0) "ES" 0 }, none)
  else (e, none)

/-- The final loop of `__populate_vm_registers`: push every cached entry
into the engine via `reg_write`, skipping selector pseudo-registers. -/
def pushRegisters (arch : Architecture) (vm : VM) (cache : RegCache) : VM × List Event :=
  match cache with
  | [] => (vm, [])
  | (name, val) :: rest =>
    if name ∈ arch.selectorRegisters then pushRegisters arch vm rest
    else
      let rid := arch.ucRegister name
      let (vm2, evs) := pushRegisters arch (vm.regWrite rid val) rest
      (vm2, Event.regWrite rid val :: evs)

/-- `Emulator.__populate_vm_registers`: seed pc and sp defaults, the
x86-32 selectors, then push the cache into the engine; `find_section`
failures escape as exceptions, leaving the partially seeded cache. -/
def populateVmRegisters (e : Emulator) (arch : Architecture) : SubResult :=
  match e.vm with
  | none => ⟨e, [], .ok false⟩
  | some vm =>
    match seedPc e arch with
    | (e1, some er) => ⟨e1, [], .error er⟩
    | (e1, none) =>
      match seedSp e1 arch with
      | (e2, some er) => ⟨e2, [], .error er⟩
      | (e2, none) =>
        match seedSelectors e2 arch with
        | (e3, some er) => ⟨e3, [], .error er⟩
        | (e3, none) =>
          let (vm2, evs) := pushRegisters arch vm e3.registers
          ⟨{ e3 with vm := some vm2 }, evs, .ok true⟩

/-- The per-key refresh loop of `__refresh_registers_from_vm` (the keys
are fixed, every value is re-read from the engine). -/
def refreshAll (arch : Architecture) (vm : VM) (cache : RegCache) : RegCache :=
  cache.map (fun p => (p.1, vm.regRead (arch.ucRegister p.1)))

/-- `Emulator.__refresh_registers_from_vm`: requires an engine and an
`is_running` session; re-reads every cached register from the engine. -/
def refreshRegistersFromVm (e : Emulator) (arch : Architecture) : Emulator × Bool :=
  match e.vm with
  | none => (e, false)
  | some vm =>
    if e.is_running = false then (e, false)
    else ({ e with registers := refreshAll arch vm e.registers }, true)

/-- `Emulator.__generate_text_bytecode`: assemble `codelines` anchored at
`start_addr`; zero instructions or an assembler diagnostic yield `False`;
on success store the joined bytes and `end_addr = start_addr + len`. -/
def generateTextBytecode (e : Emulator) (arch : Architecture) : Emulator × List Event × Bool :=
  match arch.assemble e.codelines e.start_addr with
  | .error msg => (e, [Event.logError msg], false)
  | .ok insns =>
    if insns.length = 0 then (e, [Event.logError "no instruction"], false)
    else
      let code := (insns.map Insn.bytes).flatten
      ({ e with code := code, end_addr := ((e.start_addr : Int) + code.length) }, [], true)

/-- `Emulator.validate_assembly_code`. -/
def Emulator.validate_assembly_code (e : Emulator) (arch : Architecture) :
    Emulator × List Event × Bool :=
  generateTextBytecode e arch

/-- The reserved-section check loop of `__populate_text_section`: a
`KeyError` from `find_section` is converted to
`CemuEmulatorMissingRequiredSection(name)`; an ambiguity (`ValueError`)
escapes unchanged. -/
def checkReservedSections (sections : List MemorySection) (names : List String) :
    Option EmuError :=
  match names with
  | [] => none
  | n :: rest =>
    match findSectionIn sections n with
    | .ok _ => checkReservedSections sections rest
    | .error (.keyError _) => some (.missingRequiredSection n)
    | .error er => some er

/-- `Emulator.__populate_text_section`: confirm the three reserved
sections exist, compile the source, write the bytes into the engine's
text mapping. -/
def populateTextSection (e : Emulator) (arch : Architecture) : SubResult :=
  match e.vm with
  | none => ⟨e, [], .ok false⟩
  | some vm =>
    match checkReservedSections e.sections
        [MEMORY_TEXT_SECTION_NAME, MEMORY_DATA_SECTION_NAME, MEMORY_STACK_SECTION_NAME] with
    | some er => ⟨e, [], .error er⟩
    | none =>
      match findSectionIn e.sections MEMORY_TEXT_SECTION_NAME with
      | .error er => ⟨e, [], .error er⟩
      | .ok textSec =>
        match generateTextBytecode e arch with
        | (e1, gevs, false) =>
          ⟨e1, gevs ++ [Event.logError "__generate_text_bytecode() failed"], .ok false⟩
        | (e1, gevs, true) =>
          let vm2 := vm.memWriteOp textSec.address e1.code
          ⟨{ e1 with vm := some vm2 },
           gevs ++ [Event.memWrite textSec.address e1.code], .ok true⟩

/-- The three populate sub-steps of `Emulator.setup`, run in order on the
freshly armed session: a `False` return maps to the
`RuntimeError`/`Exception` that `setup` raises, sub-step exceptions
escape unchanged, and in every case the partially mutated session is
what the caller observes. -/
def setupPopulate (e : Emulator) (arch : Architecture) : EmuResult :=
  let r1 := populateMemory e
  match r1.outcome with
  | .error er => ⟨r1.emu, r1.events, some er⟩
  | .ok false => ⟨r1.emu, r1.events, some (.runtimeError "populate_memory() failed")⟩
  | .ok true =>
    let r2 := populateVmRegisters r1.emu arch
    match r2.outcome with
    | .error er => ⟨r2.emu, r1.events ++ r2.events, some er⟩
    | .ok false =>
      ⟨r2.emu, r1.events ++ r2.events, some (.runtimeError "populate_registers() failed")⟩
    | .ok true =>
      let r3 := populateTextSection r2.emu arch
      match r3.outcome with
      | .error er => ⟨r3.emu, r1.events ++ r2.events ++ r3.events, some er⟩
      | .ok false =>
        ⟨r3.emu, r1.events ++ r2.events ++ r3.events,
         some (.runtimeError "populate_text_section() failed")⟩
      | .ok true => ⟨r3.emu, r1.events ++ r2.events ++ r3.events, none⟩

/-- The hook points `setup` installs: block-entry, instruction-fetch,
interrupt, memory-write, memory-read, plus the syscall hook on x86. -/
def hookKindsList (arch : Architecture) : List String :=
  ["block", "code", "intr", "mem_write", "mem_read"] ++
    (if arch.isX86 then ["insn_syscall"] else [])

/-- The fresh engine produced by `self.vm = arch.uc` with the five (or
six) hooks installed. -/
def armedVm (arch : Architecture) : VM :=
  { arch.uc with hooks := arch.uc.hooks ++ hookKindsList arch }

/-- `Emulator.setup`: no-op if an engine exists; otherwise create a fresh
engine from the architecture backend, install the hooks (plus the
syscall hook on x86), then run the three populate sub-steps.  Note the
engine handle is assigned before any sub-step runs and is never cleared
on failure. -/
def Emulator.setup (e : Emulator) (arch : Architecture) : EmuResult :=
  match e.vm with
  | some _ => ⟨e, [], none⟩
  | none =>
    let r := setupPopulate { e with vm := some (armedVm arch) } arch
    ⟨r.emu, (hookKindsList arch).map Event.hookAdd ++ r.events, r.err⟩

/-- The section-unmapping loop of `Emulator.teardown`. -/
def unmapSections (vm : VM) (sections : List MemorySection) : VM × List Event :=
  match sections with
  | [] => (vm, [])
  | sec :: rest =>
    let (vm2, evs) := unmapSections (vm.memUnmapOp sec.address sec.size) rest
    (vm2, Event.memUnmap sec.address sec.size :: evs)

/-- `Emulator.teardown`: no-op without an engine; otherwise read pc for
the closing log line (through the refreshing getter — a `KeyError`
escapes), unmap every section and drop the engine handle.  State,
sections and the register cache are NOT touched. -/
def Emulator.teardown (e : Emulator) (arch : Architecture) : EmuResult :=
  match e.vm with
  | none => ⟨e, [], none⟩
  | some vm =>
    let pr := e.pcRead arch
    let e1 := { e with registers := pr.cache }
    match pr.value with
    | none => ⟨e1, [], some (.keyError arch.pc)⟩
    | some _ =>
      let (_, evs) := unmapSections vm e1.sections
      ⟨{ e1 with vm := none }, evs, none⟩

/-- The entry actions of `Emulator.set` (before the state is committed):
entering `RUNNING`/`IDLE` runs `setup()` with every exception caught and
surfaced as an error popup, then refreshes the register cache when the
PREVIOUS state was `RUNNING`; entering `FINISHED` refreshes the cache;
other targets have no entry action. -/
def setEntry (e : Emulator) (arch : Architecture) (newState : EmulatorState) :
    Emulator × List Event :=
  match newState with
  | .RUNNING | .IDLE =>
    let s := e.setup arch
    let popupEvs : List Event :=
      match s.err with
      | some er => [Event.setupErrorPopup er]
      | none => []
    let e1 := s.emu
    let e2 := if e1.state = EmulatorState.RUNNING then (refreshRegistersFromVm e1 arch).1 else e1
    (e2, s.events ++ popupEvs)
  | .FINISHED => ((refreshRegistersFromVm e arch).1, [])
  | _ => (e, [])

/-- `Emulator.set` for target states whose exit action is the `_`/pass
branch (`NOT_RUNNING`, `IDLE`, `FINISHED`, ...): no-op on an equal state,
else entry actions, state commit, and the observer callbacks for the new
state in registration order.  The full `Emulator.set` below extends this
with the `RUNNING` and `TEARDOWN` exit actions; the nested transitions
requested by the runner (`FINISHED`/`IDLE`) and by `reset`
(`NOT_RUNNING`) all land here. -/
def setPlain (e : Emulator) (arch : Architecture) (newState : EmulatorState) :
    Emulator × List Event :=
  if e.state = newState then (e, [])
  else
    let (e1, evs) := setEntry e arch newState
    let e2 := { e1 with state := newState }
    let cbs := (callbacksFor e2.callbacks newState).map (fun cid => Event.callbackFired newState cid)
    (e2, evs ++ cbs)

/-- `Emulator.reset`: drop the engine handle and the compiled code,
restore the default section layout, zero a fresh register cache over the
architecture's register names, zero `start_addr`, then transition to
`NOT_RUNNING`. -/
def Emulator.reset (e : Emulator) (arch : Architecture) : Emulator × List Event :=
  let e1 := { e with
    vm := none,
    code := [],
    sections := MEMORY_MAP_DEFAULT_LAYOUT,
    registers := arch.registers.map (fun name => (name, 0)),
    start_addr := 0 }
  setPlain e1 arch EmulatorState.NOT_RUNNING

/-- The engine's blocking run primitive `vm.emu_start(start, stop)` as an
oracle: the mutated engine state plus `some faultCode` when it raises a
`UcError`. -/
def EngineRun : Type := VM → Nat → Nat → VM × Option Nat

/-- Python `l[i:]` on a byte buffer, including the negative-index
wrap-around used when `pc < start_addr`. -/
def pySliceFrom (l : List Nat) (i : Int) : List Nat :=
  if 0 ≤ i then l.drop i.toNat
  else l.drop (l.length - min (-i).toNat l.length)

/-- The tail of `EmulationRunner.run` from the `emu_start` call on
(`src/cemu/ui/main.py` lines 821-838): run the engine over the window,
then on success transition to `FINISHED` exactly when the refreshed pc
equals `start_addr + len(code)` and to `IDLE` otherwise; on a `UcError`
pop up the fault with the refreshed pc and sp and force `FINISHED`. -/
def runCore (arch : Architecture) (engineRun : EngineRun) (e : Emulator) (vm : VM)
    (startAddress stopAddress : Nat) : EmuResult :=
  let (vm2, fault) := engineRun vm startAddress stopAddress
  let e1 := { e with vm := some vm2 }
  let startEv := Event.emuStartCalled startAddress stopAddress
  match fault with
  | none =>
    let pr := e1.pcRead arch
    let e2 := { e1 with registers := pr.cache }
    match pr.value with
    | none => ⟨e2, [startEv], some (.keyError arch.pc)⟩
    | some pc2 =>
      if pc2 = e2.start_addr + e2.code.length then
        let (e3, evs) := setPlain e2 arch EmulatorState.FINISHED
        ⟨e3, startEv :: evs, none⟩
      else
        let (e3, evs) := setPlain e2 arch EmulatorState.IDLE
        ⟨e3, startEv :: evs, none⟩
  | some fcode =>
    let pr := e1.pcRead arch
    let e2 := { e1 with registers := pr.cache }
    match pr.value with
    | none => ⟨e2, [startEv], some (.keyError arch.pc)⟩
    | some pc2 =>
      let sr := e2.spRead arch
      let e3 := { e2 with registers := sr.cache }
      match sr.value with
      | none => ⟨e3, [startEv], some (.keyError arch.sp)⟩
      | some sp2 =>
        let (e4, evs) := setPlain e3 arch EmulatorState.FINISHED
        ⟨e4, startEv :: Event.runErrorPopup fcode pc2 sp2 :: evs, none⟩

/-- `EmulationRunner.run` (`src/cemu/ui/main.py` lines 788-839): bail out
without touching the engine when no engine exists or the session is not
execution-capable; otherwise compute the start address (current pc if
non-zero, else `start_addr`) and the stop address (the next
instruction's end in step mode — `FINISHED` immediately if nothing
decodes — or the end of the compiled buffer in free-run mode) and hand
over to the engine run. -/
def runnerRun (arch : Architecture) (engineRun : EngineRun) (e : Emulator) : EmuResult :=
  match e.vm with
  | none => ⟨e, [Event.logError "VM is not ready"], none⟩
  | some vm =>
    if e.is_running = false then ⟨e, [Event.logError "Emulator is in invalid state"], none⟩
    else
      let pr := e.pcRead arch
      let e1 := { e with registers := pr.cache }
      match pr.value with
      | none => ⟨e1, [], some (.keyError arch.pc)⟩
      | some pcv =>
        let startAddress := if pcv ≠ 0 then pcv else e1.start_addr
        let startOffset : Int := (startAddress : Int) - (e1.start_addr : Int)
        if e1.use_step_mode then
          match nextInstruction arch (pySliceFrom e1.code startOffset) startAddress with
          | none =>
            let (e2, evs) := setPlain e1 arch EmulatorState.FINISHED
            ⟨e2, evs, none⟩
          | some insn => runCore arch engineRun e1 vm startAddress insn.endAddress
        else runCore arch engineRun e1 vm startAddress (e1.start_addr + e1.code.length)

/-- `Emulator.set` — the state-transition operation: no-op on an equal
state; entry actions (`setup` with caught errors for `RUNNING`/`IDLE`,
register refresh); commit; observer callbacks; then the exit actions on
the new current state — `RUNNING` invokes the execution driver (after
asserting a runner is installed), `TEARDOWN` tears the engine down and
then fully resets the session. -/
def Emulator.set (e : Emulator) (arch : Architecture) (engineRun : EngineRun)
    (newState : EmulatorState) : EmuResult :=
  if e.state = newState then ⟨e, [], none⟩
  else
    let p := setPlain e arch newState
    let e2 := p.1
    let evs := p.2
    match newState with
    | .RUNNING =>
      if e2.hasRunner then
        let r := runnerRun arch engineRun e2
        ⟨r.emu, evs ++ Event.runnerInvoked :: r.events, r.err⟩
      else ⟨e2, evs, some (.assertionError "No threaded runner defined")⟩
    | .TEARDOWN =>
      let t := e2.teardown arch
      match t.err with
      | some er => ⟨t.emu, evs ++ t.events, some er⟩
      | none =>
        let (e4, revs) := t.emu.reset arch
        ⟨e4, evs ++ t.events ++ revs, none⟩
    | _ => ⟨e2, evs, none⟩

/-- `Emulator.read`: `None` unless an engine exists and the session is
`is_running` (`RUNNING` or `IDLE`); otherwise the engine's bytes. -/
def Emulator.read (e : Emulator) (address size : Nat) : Option (List Nat) :=
  match e.vm with
  | none => none
  | some vm => if e.is_running = false then none else some (vm.memRead address size)

/-- `Emulator.write`: `None` (and no engine access) unless an engine
exists and the session is `is_running`; on success performs the engine
write and returns `len(data)`. -/
def Emulator.write (e : Emulator) (address : Nat) (data : List Nat) : Option Nat × Emulator :=
  match e.vm with
  | none => (none, e)
  | some vm =>
    if e.is_running = false then (none, e)
    else (some data.length, { e with vm := some (vm.memWriteOp address data) })

/-! ## Concrete fixtures

A small three-register architecture whose assembler emits one one-byte
instruction and whose disassembler decodes one byte at a time, plus
session values used to evaluate the theorems on concrete inputs. -/

/-- A fresh engine with nothing installed. -/
def vmEmpty : VM := ⟨[], [], [], []⟩

/-- A minimal non-x86 architecture backend: registers `pc`, `sp`, `r0`
with engine ids 0, 1, 2; the assembler produces a single one-byte
instruction at the base address; the disassembler decodes one byte. -/
def archA : Architecture where
  registers := ["pc", "sp", "r0"]
  pc := "pc"
  sp := "sp"
  ucRegister := fun n => if n = "pc" then 0 else if n = "sp" then 1 else 2
  isX86 := false
  isX86_32 := false
  selectorRegisters := []
  descrCS := fun _ => 0
  descrDS := fun _ => 0
  descrSS := fun _ => 0
  uc := vmEmpty
  assemble := fun _ base => .ok [⟨base, [0x90]⟩]
  disasm1 := fun code addr =>
    match code with
    | [] => none
    | b :: _ => some ⟨addr, [b]⟩

/-- A freshly `reset` session over `archA`: `NOT_RUNNING`, no engine,
default layout, zeroed cache, one observer (id 7) registered for `IDLE`
and one (id 9) for `RUNNING`. -/
def emuFresh : Emulator where
  use_step_mode := false
  state := EmulatorState.NOT_RUNNING
  callbacks := [(EmulatorState.STARTING, []), (EmulatorState.NOT_RUNNING, []),
    (EmulatorState.IDLE, [7]), (EmulatorState.RUNNING, [9]),
    (EmulatorState.TEARDOWN, []), (EmulatorState.FINISHED, [])]
  hasRunner := true
  vm := none
  code := []
  codelines := "nop"
  sections := MEMORY_MAP_DEFAULT_LAYOUT
  registers := [("pc", 0), ("sp", 0), ("r0", 0)]
  start_addr := 0
  end_addr := 0

/-- A session whose `setup()` fails: the section list is empty, so
`__populate_memory` returns `False` and `setup` raises `RuntimeError`. -/
def emuNoSections : Emulator := { emuFresh with sections := [] }

/-- A session whose layout lacks the reserved `stack` section. -/
def emuNoStack : Emulator :=
  { emuFresh with sections :=
      [ ⟨MEMORY_TEXT_SECTION_NAME, 0x00004000, 0x1000, ⟨true, false, true⟩, none⟩,
        ⟨MEMORY_DATA_SECTION_NAME, 0x00005000, 0x1000, ⟨true, true, false⟩, none⟩ ] }

/-- An armed session whose section list is NOT sorted by address: the
section at the lowest address (0x1000) comes second. -/
def emuUnsorted : Emulator :=
  { emuFresh with
    vm := some vmEmpty,
    sections :=
      [ ⟨"b", 0x2000, 0x1000, ⟨true, false, false⟩, none⟩,
        ⟨"a", 0x1000, 0x1000, ⟨true, false, false⟩, none⟩ ] }

/-- An armed `RUNNING` session holding one compiled byte at 0x4000, as
the driver sees it right after the `RUNNING` commit. -/
def emuRunning : Emulator :=
  { emuFresh with
    state := EmulatorState.RUNNING,
    vm := some vmEmpty,
    code := [0x90],
    start_addr := 0x4000 }

/-- An armed `FINISHED` session (engine still alive). -/
def emuFinished : Emulator :=
  { emuFresh with state := EmulatorState.FINISHED, vm := some vmEmpty }

/-- An armed `IDLE` session. -/
def emuIdle : Emulator :=
  { emuFresh with state := EmulatorState.IDLE, vm := some (vmEmpty.regWrite 2 0x2a) }

/-- An engine-run oracle that finishes cleanly with the program counter
left at the stop address. -/
def engineRunToEnd : EngineRun := fun vm _ stopAddress => (vm.regWrite 0 stopAddress, none)

/-- An engine-run oracle that faults with code 10, leaving pc at 0x4004
and sp at 0x8000. -/
def engineRunFault : EngineRun := fun vm _ _ =>
  ((vm.regWrite 0 0x4004).regWrite 1 0x8000, some 10)

/-- The session fields that `setup()` can never touch: the current
state, the observer registry, and the runner handle. -/
def shell (e : Emulator) : EmulatorState × List (EmulatorState × List Nat) × Bool :=
  (e.state, e.callbacks, e.hasRunner)

/-- Recognizer for engine memory-mapping events. -/
def isMemMapEvent : Event → Bool
  | .memMap _ _ _ => true
  | _ => false

/-! ## Association-list lemmas -/

theorem assocGet_assocSet {α β : Type} [DecidableEq α] (c : List (α × β)) (k : α) (v : β)
    (k2 : α) : assocGet (assocSet c k v) k2 = if k = k2 then some v else assocGet c k2 := by
  induction c with
  | nil =>
    simp only [assocSet, assocGet]
  | cons hd tl ih =>
    obtain ⟨a, b⟩ := hd
    by_cases hak : a = k
    · subst hak
      simp only [assocSet, if_pos rfl, assocGet]
      by_cases hk2 : a = k2 <;> simp [hk2]
    · simp only [assocSet, if_neg hak, assocGet]
      by_cases hak2 : a = k2
      · subst hak2
        have hk : ¬(k = a) := fun h => hak h.symm
        simp [hk]
      · simp [hak2, ih]

theorem assocGet_assocSet_self {α β : Type} [DecidableEq α] (c : List (α × β)) (k : α) (v : β) :
    assocGet (assocSet c k v) k = some v := by
  simp [assocGet_assocSet]

theorem assocGet_assocSet_ne {α β : Type} [DecidableEq α] (c : List (α × β)) (k : α) (v : β)
    (k2 : α) (h : k ≠ k2) : assocGet (assocSet c k v) k2 = assocGet c k2 := by
  simp [assocGet_assocSet, h]

theorem assocGet_map_zero (l : List String) (k : String) (h : k ∈ l) :
    assocGet (l.map (fun n => (n, (0 : Nat)))) k = some 0 := by
  induction l with
  | nil => cases h
  | cons hd tl ih =>
    simp only [List.map_cons, assocGet]
    by_cases hk : hd = k
    · simp [hk]
    · have : k ∈ tl := by
        rcases List.mem_cons.mp h with h1 | h1
        · exact absurd h1.symm hk
        · exact h1
      simp [hk, ih this]

theorem assocGet_assocSet_isSome {α β : Type} [DecidableEq α] (c : List (α × β)) (k : α)
    (v : β) (k2 : α) (h : (assocGet c k2).isSome = true) :
    (assocGet (assocSet c k v) k2).isSome = true := by
  by_cases hk : k = k2 <;> simp [assocGet_assocSet, hk, h]

/-! ## Preservation lemmas for `setup` -/

theorem seedPc_shell (e : Emulator) (arch : Architecture) :
    shell (seedPc e arch).1 = shell e ∧ (seedPc e arch).1.vm = e.vm := by
  unfold seedPc
  rcases hv : (e.registersGetitem arch arch.pc).value with _ | pcv
  · simp [shell, hv]
  · by_cases h0 : pcv = 0
    · rcases hf : findSectionIn e.sections MEMORY_TEXT_SECTION_NAME with er | sec
      · simp [shell, hv, h0, hf]
      · simp [shell, hv, h0, hf]
    · simp [shell, hv, h0]

theorem seedSp_shell (e : Emulator) (arch : Architecture) :
    shell (seedSp e arch).1 = shell e ∧ (seedSp e arch).1.vm = e.vm := by
  unfold seedSp
  rcases hv : (e.registersGetitem arch arch.sp).value with _ | spv
  · simp [shell, hv]
  · by_cases h0 : spv = 0
    · rcases hf : findSectionIn e.sections MEMORY_STACK_SECTION_NAME with er | sec
      · simp [shell, hv, h0, hf]
      · simp [shell, hv, h0, hf]
    · simp [shell, hv, h0]

theorem seedSelectors_shell (e : Emulator) (arch : Architecture) :
    shell (seedSelectors e arch).1 = shell e ∧ (seedSelectors e arch).1.vm = e.vm := by
  unfold seedSelectors
  by_cases hx : arch.isX86_32
  · rcases h1 : findSectionIn e.sections MEMORY_TEXT_SECTION_NAME with er | textSec
    · simp [shell, hx, h1]
    · rcases h2 : findSectionIn e.sections MEMORY_DATA_SECTION_NAME with er | dataSec
      · simp [shell, hx, h1, h2]
      · rcases h3 : findSectionIn e.sections MEMORY_STACK_SECTION_NAME with er | stackSec
        · simp [shell, hx, h1, h2, h3]
        · simp [shell, hx, h1, h2, h3]
  · simp [shell, hx]

theorem populateMemory_shell (e : Emulator) :
    shell (populateMemory e).emu = shell e ∧
    ((populateMemory e).emu.vm.isSome = true ∨ (populateMemory e).emu.vm = e.vm) := by
  unfold populateMemory
  rcases hvm : e.vm with _ | vm
  · simp [shell, hvm]
  · by_cases hlen : e.sections.length < 1
    · simp [shell, hvm, hlen]
    · simp [shell, hvm, hlen]

theorem populateVmRegisters_shell (e : Emulator) (arch : Architecture) :
    shell (populateVmRegisters e arch).emu = shell e ∧
    ((populateVmRegisters e arch).emu.vm.isSome = true ∨
      (populateVmRegisters e arch).emu.vm = e.vm) := by
  unfold populateVmRegisters
  rcases hvm : e.vm with _ | vm
  · simp [shell, hvm]
  · rcases h1 : seedPc e arch with ⟨e1, er1⟩
    have p1 := seedPc_shell e arch
    rw [h1] at p1
    rcases er1 with _ | er
    · rcases h2 : seedSp e1 arch with ⟨e2, er2⟩
      have p2 := seedSp_shell e1 arch
      rw [h2] at p2
      rcases er2 with _ | er
      · rcases h3 : seedSelectors e2 arch with ⟨e3, er3⟩
        have p3 := seedSelectors_shell e2 arch
        rw [h3] at p3
        rcases er3 with _ | er
        · refine ⟨?_, .inl (by simp [hvm, h1, h2, h3])⟩
          simp only [hvm, h1, h2, h3]
          have : shell e3 = shell e := (p3.1.trans p2.1).trans p1.1
          simpa [shell] using this
        · refine ⟨?_, ?_⟩
          · simp only [hvm, h1, h2, h3]
            exact (p3.1.trans p2.1).trans p1.1
          · simp only [hvm, h1, h2, h3]
            exact .inr ((p3.2.trans p2.2).trans (p1.2.trans hvm))
      · refine ⟨?_, ?_⟩
        · simp only [hvm, h1, h2]
          exact p2.1.trans p1.1
        · simp only [hvm, h1, h2]
          exact .inr (p2.2.trans (p1.2.trans hvm))
    · refine ⟨?_, ?_⟩
      · simp only [hvm, h1]
        exact p1.1
      · simp only [hvm, h1]
        exact .inr (p1.2.trans hvm)

theorem generateTextBytecode_shell (e : Emulator) (arch : Architecture) :
    shell (generateTextBytecode e arch).1 = shell e ∧
    (generateTextBytecode e arch).1.vm = e.vm := by
  unfold generateTextBytecode
  rcases ha : arch.assemble e.codelines e.start_addr with msg | insns
  · simp [shell, ha]
  · by_cases hlen : insns.length = 0
    · simp [shell, ha, hlen]
    · simp [shell, ha, hlen]

theorem populateTextSection_shell (e : Emulator) (arch : Architecture) :
    shell (populateTextSection e arch).emu = shell e ∧
    ((populateTextSection e arch).emu.vm.isSome = true ∨
      (populateTextSection e arch).emu.vm = e.vm) := by
  unfold populateTextSection
  rcases hvm : e.vm with _ | vm
  · simp [shell, hvm]
  · rcases hc : checkReservedSections e.sections
        [MEMORY_TEXT_SECTION_NAME, MEMORY_DATA_SECTION_NAME, MEMORY_STACK_SECTION_NAME]
      with _ | er
    · rcases hf : findSectionIn e.sections MEMORY_TEXT_SECTION_NAME with er | textSec
      · simp [shell, hvm, hc, hf]
      · rcases hg : generateTextBytecode e arch with ⟨e1, gevs, ok⟩
        have pg := generateTextBytecode_shell e arch
        rw [hg] at pg
        rcases ok with _ | _
        · refine ⟨?_, ?_⟩
          · simp only [hvm, hc, hf, hg]
            exact pg.1
          · simp only [hvm, hc, hf, hg]
            exact .inr (pg.2.trans hvm)
        · refine ⟨?_, .inl (by simp [hvm, hc, hf, hg])⟩
          simp only [hvm, hc, hf, hg]
          simpa [shell] using pg.1
    · simp [shell, hvm, hc]

theorem refreshRegistersFromVm_shell (e : Emulator) (arch : Architecture) :
    shell (refreshRegistersFromVm e arch).1 = shell e ∧
    (refreshRegistersFromVm e arch).1.vm = e.vm := by
  unfold refreshRegistersFromVm
  rcases hvm : e.vm with _ | vm
  · simp [shell, hvm]
  · by_cases hr : e.is_running = false
    · simp [shell, hvm, hr]
    · simp [shell, hvm, hr]

theorem setupPopulate_shell (e : Emulator) (arch : Architecture) :
    shell (setupPopulate e arch).emu = shell e ∧
    ((setupPopulate e arch).emu.vm.isSome = true ∨ (setupPopulate e arch).emu.vm = e.vm) := by
  unfold setupPopulate
  rcases h1 : populateMemory e with ⟨e1, ev1, o1⟩
  have p1 := populateMemory_shell e
  rw [h1] at p1
  simp only [h1]
  rcases o1 with er | b
  · exact ⟨p1.1, p1.2⟩
  · rcases b with _ | _
    · exact ⟨p1.1, p1.2⟩
    · rcases h2 : populateVmRegisters e1 arch with ⟨e2, ev2, o2⟩
      have p2 := populateVmRegisters_shell e1 arch
      rw [h2] at p2
      simp only [h2]
      have hv2 : e2.vm.isSome = true ∨ e2.vm = e.vm := by
        rcases p2.2 with h | h
        · exact .inl h
        · rw [h]
          exact p1.2
      rcases o2 with er | b
      · exact ⟨p2.1.trans p1.1, hv2⟩
      · rcases b with _ | _
        · exact ⟨p2.1.trans p1.1, hv2⟩
        · rcases h3 : populateTextSection e2 arch with ⟨e3, ev3, o3⟩
          have p3 := populateTextSection_shell e2 arch
          rw [h3] at p3
          simp only [h3]
          have hv3 : e3.vm.isSome = true ∨ e3.vm = e.vm := by
            rcases p3.2 with h | h
            · exact .inl h
            · rw [h]
              exact hv2
          rcases o3 with er | b
          · exact ⟨(p3.1.trans p2.1).trans p1.1, hv3⟩
          · rcases b with _ | _ <;> exact ⟨(p3.1.trans p2.1).trans p1.1, hv3⟩

/-- `setup` never changes the session state, the observer registry or the
runner handle, and always leaves an engine handle in place afterwards
(it is assigned before the sub-steps and never cleared, even on
failure). -/
theorem setup_shell (e : Emulator) (arch : Architecture) :
    shell (e.setup arch).emu = shell e ∧
    ((e.setup arch).emu.vm.isSome = true ∨ (e.setup arch).emu.vm = e.vm) := by
  unfold Emulator.setup
  rcases hvm : e.vm with _ | vm
  · simp only [hvm]
    have p := setupPopulate_shell { e with vm := some (armedVm arch) } arch
    refine ⟨by simpa [shell] using p.1, .inl ?_⟩
    rcases p.2 with h | h
    · simpa using h
    · simp [h]
  · simp [shell, hvm]

/-- After `setup` from an engine-less session, an engine handle exists
(even when setup failed). -/
theorem setup_vm_isSome (e : Emulator) (arch : Architecture) (h : e.vm = none) :
    (e.setup arch).emu.vm.isSome = true := by
  unfold Emulator.setup
  simp only [h]
  have p := setupPopulate_shell { e with vm := some (armedVm arch) } arch
  rcases p.2 with h2 | h2
  · simpa using h2
  · simp [h2]

/-- Committing a state transition always leaves the target state as the
current state (for the pass-exit targets handled by `setPlain`). -/
theorem setPlain_state (e : Emulator) (arch : Architecture) (s : EmulatorState)
    (h : e.state ≠ s) : (setPlain e arch s).1.state = s := by
  unfold setPlain
  simp [h]

/-! ## Claim C4 — provisional start address from the populate-memory step -/

/-- C4 counterexample: on a section list that is not sorted by address
(`[b@0x2000, a@0x1000]`), the populate-memory step records 0x2000 — the
FIRST section's address — as the provisional `start_addr`, although a
section with the strictly lower address 0x1000 is in the list.  The
claim that the lowest address is recorded is therefore false. -/
theorem populateMemory_lowest_cex :
    (populateMemory emuUnsorted).emu.start_addr = 0x2000 ∧
    emuUnsorted.sections.map MemorySection.address = [0x2000, 0x1000] ∧
    (0x1000 : Nat) < 0x2000 := by
  decide

/-- C4 (amended): for every armed session with a non-empty section list,
the populate-memory step of setup records as the provisional
`start_addr` the address of the FIRST section in list order (which is
the lowest only when the list is sorted by address), and succeeds. -/
theorem populateMemory_start_addr_first (e : Emulator) (vm : VM) (s : MemorySection)
    (rest : List MemorySection) (hvm : e.vm = some vm) (hsec : e.sections = s :: rest) :
    (populateMemory e).emu.start_addr = s.address ∧
    (populateMemory e).outcome = .ok true := by
  unfold populateMemory
  simp [hvm, hsec]

/-- C4 witness: the amended theorem evaluated on the concrete unsorted
layout. -/
theorem populateMemory_start_addr_first_witness :
    (populateMemory emuUnsorted).emu.start_addr =
      (⟨"b", 0x2000, 0x1000, ⟨true, false, false⟩, none⟩ : MemorySection).address ∧
    (populateMemory emuUnsorted).outcome = .ok true :=
  populateMemory_start_addr_first emuUnsorted vmEmpty
    ⟨"b", 0x2000, 0x1000, ⟨true, false, false⟩, none⟩
    [⟨"a", 0x1000, 0x1000, ⟨true, false, false⟩, none⟩] rfl rfl

/-! ## Claim C6 — register-cache set on unknown names -/

/-- C6 counterexample: storing to a name outside the architecture's
register set (`"xyz"` is not a key of the cache) does not fail with
`UnknownRegister` — `EmulationRegisters` never overrides `__setitem__`,
so `UserDict`'s plain store simply inserts the new key. -/
theorem registers_setitem_unknown_cex :
    assocGet ([("pc", 0), ("sp", 0), ("r0", 0)] : RegCache) "xyz" = none ∧
    EmulationRegisters.setitem [("pc", 0), ("sp", 0), ("r0", 0)] "xyz" 42 =
      [("pc", 0), ("sp", 0), ("r0", 0), ("xyz", 42)] ∧
    assocGet (EmulationRegisters.setitem [("pc", 0), ("sp", 0), ("r0", 0)] "xyz" 42) "xyz" =
      some 42 := by
  decide

/-- C6 (amended): `set(name, value)` on the register cache stores the
value for EVERY name, known or unknown (unknown names are added as new
keys); no `UnknownRegister` check exists in the cache. -/
theorem registers_setitem_stores_any (c : RegCache) (k : String) (v : Nat) :
    assocGet (EmulationRegisters.setitem c k v) k = some v := by
  unfold EmulationRegisters.setitem
  exact assocGet_assocSet_self c k v

/-! ## Claim C9 — idempotence of setup -/

/-- C9: `setup()` is idempotent — on a session that already has an
engine it returns immediately: no session field changes, no events at
all are produced (in particular no memory mapping is performed, so
mapping happens exactly once across two back-to-back calls), and no
error is raised. -/
theorem setup_second_call_noop (arch : Architecture) (e : Emulator) (v : VM)
    (h : e.vm = some v) :
    e.setup arch = ⟨e, [], none⟩ ∧
    (e.setup arch).events.filter isMemMapEvent = [] := by
  unfold Emulator.setup
  simp [h]

/-- C9 witness: a session holding an engine (as any session does right
after a first `setup`) is left untouched by a second call. -/
theorem setup_second_call_noop_witness :
    emuFinished.setup archA = ⟨emuFinished, [], none⟩ ∧
    (emuFinished.setup archA).events.filter isMemMapEvent = [] :=
  setup_second_call_noop archA emuFinished vmEmpty rfl

/-! ## Claim C10 — read/write gating on engine and state -/

/-- C10: `Emulator.read`/`Emulator.write` return `None` without touching
the engine unless an engine exists and the session is `is_running`
(`RUNNING` or `IDLE`) — in particular in `FINISHED`, where an engine
still exists — and on success `write` returns `len(data)`. -/
theorem read_write_gating (e : Emulator) (address size : Nat) (data : List Nat) :
    (e.vm = none → e.read address size = none ∧ e.write address data = (none, e)) ∧
    (e.is_running = false → e.read address size = none ∧ e.write address data = (none, e)) ∧
    (e.state = EmulatorState.FINISHED →
      e.read address size = none ∧ e.write address data = (none, e)) ∧
    (∀ vm, e.vm = some vm → e.is_running = true →
      e.read address size = some (vm.memRead address size) ∧
      (e.write address data).1 = some data.length) := by
  have hrw : e.is_running = false →
      e.read address size = none ∧ e.write address data = (none, e) := by
    intro h
    unfold Emulator.read Emulator.write
    rcases hvm : e.vm with _ | vm <;> simp [h]
  refine ⟨?_, hrw, ?_, ?_⟩
  · intro h
    unfold Emulator.read Emulator.write
    simp [h]
  · intro h
    exact hrw (by simp [Emulator.is_running, h])
  · intro vm hvm hr
    unfold Emulator.read Emulator.write
    simp [hvm, hr]

/-- C10 witness: in `FINISHED` with a live engine both accessors return
`None`, while in `IDLE` a write succeeds and returns the data length. -/
theorem read_write_gating_witness :
    (emuFinished.read 0x4000 4 = none ∧ emuFinished.write 0x4000 [1, 2] = (none, emuFinished)) ∧
    emuFinished.vm.isSome = true ∧
    (emuIdle.write 0x5000 [1, 2, 3]).1 = some 3 := by
  refine ⟨(read_write_gating emuFinished 0x4000 4 [1, 2]).2.2.1 rfl, by decide, ?_⟩
  exact ((read_write_gating emuIdle 0x5000 0 [1, 2, 3]).2.2.2 (vmEmpty.regWrite 2 0x2a)
    rfl rfl).2

/-! ## Claim C5 — register-cache read freshness -/

/-- C5: a register-cache read of a known key pulls the value from the
live engine, stores it and returns the stored value exactly when the
session state is `RUNNING`, `IDLE` or `FINISHED`; in any other state it
returns the last stored value unchanged and never touches the engine. -/
theorem registers_getitem_spec (arch : Architecture) (e : Emulator) (key : String) :
    (∀ vm, (e.state = EmulatorState.RUNNING ∨ e.state = EmulatorState.IDLE ∨
        e.state = EmulatorState.FINISHED) →
      e.vm = some vm → (assocGet e.registers key).isSome = true →
      e.registersGetitem arch key =
        ⟨some (vm.regRead (arch.ucRegister key)),
         assocSet e.registers key (vm.regRead (arch.ucRegister key)), true⟩) ∧
    ((e.state ≠ EmulatorState.RUNNING ∧ e.state ≠ EmulatorState.IDLE ∧
        e.state ≠ EmulatorState.FINISHED) →
      e.registersGetitem arch key = ⟨assocGet e.registers key, e.registers, false⟩) := by
  constructor
  · intro vm hst hvm hk
    unfold Emulator.registersGetitem Emulator.get_register_value
    rw [if_pos ⟨hst, hk⟩]
    simp [hvm, assocGet_assocSet_self]
  · intro h
    unfold Emulator.registersGetitem
    rw [if_neg]
    intro hc
    rcases hc.1 with h1 | h1 | h1
    · exact h.1 h1
    · exact h.2.1 h1
    · exact h.2.2 h1

/-- C5 witness: in `IDLE` the read returns the engine's value 0x2a for
`r0` and stores it; in `NOT_RUNNING` the same read returns the cached 0
with the cache unchanged and the engine untouched. -/
theorem registers_getitem_spec_witness :
    emuIdle.registersGetitem archA "r0" = ⟨some 0x2a, [("pc", 0), ("sp", 0), ("r0", 0x2a)], true⟩ ∧
    emuFresh.registersGetitem archA "pc" = ⟨some 0, emuFresh.registers, false⟩ := by
  constructor
  · have h := (registers_getitem_spec archA emuIdle "r0").1 (vmEmpty.regWrite 2 0x2a)
      (by decide) rfl (by decide)
    rw [h]
    decide
  · have h := (registers_getitem_spec archA emuFresh "pc").2 (by decide)
    rw [h]
    decide

/-! ## Claim C2 — setup on a layout missing a reserved section -/

/-- C2 counterexample: on a `NOT_RUNNING` session whose layout lacks the
reserved `stack` section (pc/sp caches zero, as after `reset`), `setup`
fails with the `KeyError` raised by `find_section` while seeding the
stack pointer — NOT with `MissingRequiredSection` — and it leaves the
engine handle it created at the start of setup in place, so the session
does not end up engine-less. -/
theorem setup_missing_section_cex :
    (emuNoStack.setup archA).err = some (EmuError.keyError "stack") ∧
    (emuNoStack.setup archA).err ≠ some (EmuError.missingRequiredSection "stack") ∧
    (emuNoStack.setup archA).emu.vm.isSome = true ∧
    (emuNoStack.setup archA).emu.state = EmulatorState.NOT_RUNNING := by
  decide

/-- C2 (amended): for every `NOT_RUNNING` engine-less session whose
section list holds exactly a text and a data section (the reserved
`stack` section absent) and whose pc/sp cache entries are zero, `setup`
aborts with the section-lookup `KeyError("stack")` from the
register-seeding step (the `MissingRequiredSection` check is never
reached), the session remains `NOT_RUNNING` — but an engine handle has
been created and remains set. -/
theorem setup_missing_stack (arch : Architecture) (e : Emulator) (ts ds : MemorySection)
    (hsec : e.sections = [ts, ds]) (hts : ts.name = MEMORY_TEXT_SECTION_NAME)
    (hds : ds.name = MEMORY_DATA_SECTION_NAME)
    (hst : e.state = EmulatorState.NOT_RUNNING) (hvm : e.vm = none)
    (hpc : assocGet e.registers arch.pc = some 0)
    (hsp : assocGet e.registers arch.sp = some 0)
    (hpcsp : arch.pc ≠ arch.sp) :
    (e.setup arch).err = some (.keyError MEMORY_STACK_SECTION_NAME) ∧
    (e.setup arch).emu.state = EmulatorState.NOT_RUNNING ∧
    (e.setup arch).emu.vm.isSome = true := by
  have hdt : (MEMORY_DATA_SECTION_NAME = MEMORY_TEXT_SECTION_NAME) = False := by decide
  have htst : (MEMORY_TEXT_SECTION_NAME = MEMORY_STACK_SECTION_NAME) = False := by decide
  have hdst : (MEMORY_DATA_SECTION_NAME = MEMORY_STACK_SECTION_NAME) = False := by decide
  unfold Emulator.setup setupPopulate populateMemory populateVmRegisters seedPc seedSp
    Emulator.registersGetitem Emulator.get_register_value findSectionIn
  simp [hvm, hsec, hst, hts, hds, hpc, hsp, hdt, htst, hdst,
    assocGet_assocSet_ne _ _ _ _ hpcsp]

/-- C2 witness: the amended theorem on the concrete stack-less layout. -/
theorem setup_missing_stack_witness :
    (emuNoStack.setup archA).err = some (.keyError MEMORY_STACK_SECTION_NAME) ∧
    (emuNoStack.setup archA).emu.state = EmulatorState.NOT_RUNNING ∧
    (emuNoStack.setup archA).emu.vm.isSome = true :=
  setup_missing_stack archA emuNoStack _ _ rfl rfl rfl rfl rfl (by decide) (by decide)
    (by decide)

/-! ## Claim C3 — setup immediately followed by teardown -/

/-- C3 counterexample: after a successful `setup()` followed immediately
by `teardown()` on the default layout, the pc cache entry reads the
seeded text base 0x4000, not zero — `teardown` alone does not zero the
register cache, so the claim that every register-cache entry equals zero
is false (zeroing happens only in `reset`). -/
theorem setup_teardown_registers_cex :
    (emuFresh.setup archA).err = none ∧
    assocGet ((emuFresh.setup archA).emu.teardown archA).emu.registers "pc" = some 0x4000 ∧
    assocGet ((emuFresh.setup archA).emu.teardown archA).emu.registers "pc" ≠ some 0 := by
  decide

/-- C3 (amended): on a default-layout session (zeroed cache, engine-less,
`NOT_RUNNING`, non-x86-32, compilable source), `setup()` followed
immediately by `teardown()` leaves the session with no engine handle, in
state `NOT_RUNNING`, with the section list equal to the default layout —
but with the pc cache entry equal to the text base (0x4000), the sp
entry equal to the stack midpoint (0x8000), and only the remaining
entries zero. -/
theorem setup_teardown (arch : Architecture) (e : Emulator) (insns : List Insn)
    (harch : arch.isX86_32 = false)
    (hsec : e.sections = MEMORY_MAP_DEFAULT_LAYOUT)
    (hst : e.state = EmulatorState.NOT_RUNNING) (hvm : e.vm = none)
    (hreg : e.registers = arch.registers.map (fun n => (n, 0)))
    (hpcin : arch.pc ∈ arch.registers) (hspin : arch.sp ∈ arch.registers)
    (hpcsp : arch.pc ≠ arch.sp)
    (hasm : arch.assemble e.codelines 0x4000 = .ok insns) (hlen : insns.length ≠ 0) :
    (e.setup arch).err = none ∧
    ((e.setup arch).emu.teardown arch).err = none ∧
    ((e.setup arch).emu.teardown arch).emu.vm = none ∧
    ((e.setup arch).emu.teardown arch).emu.state = EmulatorState.NOT_RUNNING ∧
    ((e.setup arch).emu.teardown arch).emu.sections = MEMORY_MAP_DEFAULT_LAYOUT ∧
    assocGet ((e.setup arch).emu.teardown arch).emu.registers arch.pc = some 0x4000 ∧
    assocGet ((e.setup arch).emu.teardown arch).emu.registers arch.sp = some 0x8000 ∧
    (∀ n, n ∈ arch.registers → n ≠ arch.pc → n ≠ arch.sp →
      assocGet ((e.setup arch).emu.teardown arch).emu.registers n = some 0) := by
  have hpc0 : assocGet e.registers arch.pc = some 0 := by
    rw [hreg]
    exact assocGet_map_zero _ _ hpcin
  have hsp0 : assocGet e.registers arch.sp = some 0 := by
    rw [hreg]
    exact assocGet_map_zero _ _ hspin
  have hsppc : ¬(arch.sp = arch.pc) := fun h => hpcsp h.symm
  unfold Emulator.setup setupPopulate populateMemory populateVmRegisters seedPc seedSp
    seedSelectors populateTextSection generateTextBytecode checkReservedSections
    Emulator.teardown Emulator.pcRead
    Emulator.registersGetitem Emulator.get_register_value findSectionIn
  simp [hvm, hsec, hst, hreg, harch, hpc0, hsp0, hpcsp, hsppc, hasm, hlen,
    assocGet_assocSet, MEMORY_MAP_DEFAULT_LAYOUT, MEMORY_TEXT_SECTION_NAME,
    MEMORY_DATA_SECTION_NAME, MEMORY_STACK_SECTION_NAME, mapSections, unmapSections,
    checkReservedSections, findSectionIn,
    assocGet_map_zero _ _ hpcin, assocGet_map_zero _ _ hspin]
  intro n hn hnp hns
  rw [if_neg (fun h : arch.sp = n => hns h.symm), if_neg (fun h : arch.pc = n => hnp h.symm)]
  exact assocGet_map_zero _ _ hn

/-- C3 witness: the amended theorem on the concrete default session. -/
theorem setup_teardown_witness :
    (emuFresh.setup archA).err = none ∧
    ((emuFresh.setup archA).emu.teardown archA).emu.vm = none ∧
    ((emuFresh.setup archA).emu.teardown archA).emu.state = EmulatorState.NOT_RUNNING ∧
    ((emuFresh.setup archA).emu.teardown archA).emu.sections = MEMORY_MAP_DEFAULT_LAYOUT ∧
    assocGet ((emuFresh.setup archA).emu.teardown archA).emu.registers "pc" = some 0x4000 ∧
    assocGet ((emuFresh.setup archA).emu.teardown archA).emu.registers "sp" = some 0x8000 ∧
    assocGet ((emuFresh.setup archA).emu.teardown archA).emu.registers "r0" = some 0 := by
  have h := setup_teardown archA emuFresh [⟨0x4000, [0x90]⟩] rfl rfl rfl rfl rfl
    (by decide) (by decide) (by decide) rfl (by decide)
  exact ⟨h.1, h.2.2.1, h.2.2.2.1, h.2.2.2.2.1, h.2.2.2.2.2.1, h.2.2.2.2.2.2.1,
    h.2.2.2.2.2.2.2 "r0" (by decide) (by decide) (by decide)⟩

/-! ## Claim C1 — state transitions when setup fails -/

theorem setup_proj (e : Emulator) (arch : Architecture) :
    (e.setup arch).emu.state = e.state ∧ (e.setup arch).emu.callbacks = e.callbacks ∧
    (e.setup arch).emu.hasRunner = e.hasRunner := by
  have h := (setup_shell e arch).1
  simpa [shell, Prod.ext_iff] using h

theorem refresh_proj (e : Emulator) (arch : Architecture) :
    (refreshRegistersFromVm e arch).1.state = e.state ∧
    (refreshRegistersFromVm e arch).1.callbacks = e.callbacks ∧
    (refreshRegistersFromVm e arch).1.hasRunner = e.hasRunner := by
  have h := (refreshRegistersFromVm_shell e arch).1
  simpa [shell, Prod.ext_iff] using h

/-- The entry actions of a transition never change the observer registry
or the runner handle. -/
theorem setEntry_proj (e : Emulator) (arch : Architecture) (ns : EmulatorState) :
    (setEntry e arch ns).1.callbacks = e.callbacks ∧
    (setEntry e arch ns).1.hasRunner = e.hasRunner := by
  have hs := setup_proj e arch
  have hr := refresh_proj (e.setup arch).emu arch
  have hr0 := refresh_proj e arch
  cases ns with
  | RUNNING =>
    unfold setEntry
    by_cases h : (e.setup arch).emu.state = EmulatorState.RUNNING <;>
      simp [h, hs.2.1, hs.2.2, hr.2.1, hr.2.2]
  | IDLE =>
    unfold setEntry
    by_cases h : (e.setup arch).emu.state = EmulatorState.RUNNING <;>
      simp [h, hs.2.1, hs.2.2, hr.2.1, hr.2.2]
  | FINISHED =>
    unfold setEntry
    exact ⟨hr0.2.1, hr0.2.2⟩
  | INVALID => simp [setEntry]
  | STARTING => simp [setEntry]
  | NOT_RUNNING => simp [setEntry]
  | TEARDOWN => simp [setEntry]

/-- On a failed setup during a `RUNNING`/`IDLE` entry action, the entry
events are the setup events followed by the error popup. -/
theorem setEntry_events_fail (e : Emulator) (arch : Architecture) (ns : EmulatorState)
    (hs : ns = EmulatorState.RUNNING ∨ ns = EmulatorState.IDLE) (er : EmuError)
    (hfail : (e.setup arch).err = some er) :
    (setEntry e arch ns).2 = (e.setup arch).events ++ [Event.setupErrorPopup er] := by
  rcases hs with h | h <;> subst h <;> (unfold setEntry; simp [hfail])

/-- C1 counterexample: on an engine-less session whose setup fails (empty
section list), a transition to `IDLE` does NOT abort — the state is
committed to `IDLE` and the observer registered for `IDLE` is fired, so
the claim that the current state is not changed and no observer is fired
is false. -/
theorem set_after_failed_setup_cex :
    ((emuNoSections.setup archA).err).isSome = true ∧
    (emuNoSections.set archA engineRunToEnd EmulatorState.IDLE).emu.state =
      EmulatorState.IDLE ∧
    Event.callbackFired EmulatorState.IDLE 7 ∈
      (emuNoSections.set archA engineRunToEnd EmulatorState.IDLE).events := by
  decide

/-- C1 (amended): for every transition request to `RUNNING` or `IDLE`
whose setup fails, the error is caught and surfaced as an error popup
(it is not re-raised to the caller) and the transition then PROCEEDS:
the state is committed to the target, every observer registered for the
target is fired, and for `RUNNING` (with a runner installed) the
execution driver is still invoked. -/
theorem set_after_failed_setup (arch : Architecture) (engineRun : EngineRun) (e : Emulator)
    (s : EmulatorState) (er : EmuError)
    (hS : s = EmulatorState.RUNNING ∨ s = EmulatorState.IDLE)
    (hne : e.state ≠ s)
    (hfail : (e.setup arch).err = some er) :
    Event.setupErrorPopup er ∈ (e.set arch engineRun s).events ∧
    (∀ cid, cid ∈ callbacksFor e.callbacks s →
      Event.callbackFired s cid ∈ (e.set arch engineRun s).events) ∧
    (s = EmulatorState.IDLE → (e.set arch engineRun s).emu.state = EmulatorState.IDLE) ∧
    (s = EmulatorState.RUNNING → e.hasRunner = true →
      Event.runnerInvoked ∈ (e.set arch engineRun s).events) := by
  have hpe := setEntry_proj e arch s
  have hev := setEntry_events_fail e arch s hS er hfail
  have hp : setPlain e arch s =
      ({ (setEntry e arch s).1 with state := s },
       (setEntry e arch s).2 ++
         (callbacksFor e.callbacks s).map (fun cid => Event.callbackFired s cid)) := by
    unfold setPlain
    rw [if_neg hne]
    rcases hse : setEntry e arch s with ⟨e1, evs⟩
    have hc : e1.callbacks = e.callbacks := by
      have h2 := hpe.1
      rw [hse] at h2
      exact h2
    simp [hc]
  unfold Emulator.set
  rw [if_neg hne]
  rcases hS with h | h <;> subst h
  · rw [hp]
    by_cases hr : e.hasRunner = true
    · have hcond : (setEntry e arch EmulatorState.RUNNING).1.hasRunner = true := by
        rw [hpe.2]
        exact hr
      simp only [hcond, if_true, hev]
      refine ⟨?_, ?_, ?_, ?_⟩
      · exact List.mem_append_left _ (List.mem_append_left _
          (List.mem_append_right _ (List.mem_singleton_self _)))
      · intro cid hcid
        exact List.mem_append_left _ (List.mem_append_right _ (List.mem_map_of_mem _ hcid))
      · intro hcontra
        cases hcontra
      · intro _ _
        exact List.mem_append_right _ (List.mem_cons_self _ _)
    · have hrf : e.hasRunner = false := by
        revert hr
        cases e.hasRunner <;> simp
      have hcond : (setEntry e arch EmulatorState.RUNNING).1.hasRunner = false := by
        rw [hpe.2]
        exact hrf
      simp only [hcond, Bool.false_eq_true, if_false, hev]
      refine ⟨?_, ?_, ?_, ?_⟩
      · exact List.mem_append_left _ (List.mem_append_right _ (List.mem_singleton_self _))
      · intro cid hcid
        exact List.mem_append_right _ (List.mem_map_of_mem _ hcid)
      · intro hcontra
        cases hcontra
      · intro _ hcontra
        rw [hcontra] at hrf
        cases hrf
  · rw [hp]
    refine ⟨?_, ?_, ?_, ?_⟩
    · rw [hev]
      exact List.mem_append_left _ (List.mem_append_right _ (List.mem_singleton_self _))
    · intro cid hcid
      exact List.mem_append_right _ (List.mem_map_of_mem _ hcid)
    · intro _
      rfl
    · intro hcontra
      cases hcontra

/-- C1 witness: the amended theorem on the concrete failing session. -/
theorem set_after_failed_setup_witness :
    Event.setupErrorPopup (EmuError.runtimeError "populate_memory() failed") ∈
      (emuNoSections.set archA engineRunToEnd EmulatorState.IDLE).events ∧
    Event.callbackFired EmulatorState.IDLE 7 ∈
      (emuNoSections.set archA engineRunToEnd EmulatorState.IDLE).events ∧
    (emuNoSections.set archA engineRunToEnd EmulatorState.IDLE).emu.state =
      EmulatorState.IDLE := by
  have h := set_after_failed_setup archA engineRunToEnd emuNoSections EmulatorState.IDLE
    (EmuError.runtimeError "populate_memory() failed") (Or.inr rfl) (by decide) (by decide)
  exact ⟨h.1, h.2.1 7 (by decide), h.2.2.1 rfl⟩

/-! ## Claims C7 and C8 — the execution driver's run outcome -/

/-- Reading a known register through the refreshing getter in an
execution-capable state with a live engine yields the engine's value and
stores it. -/
theorem getitem_exec (arch : Architecture) (e : Emulator) (key : String) (vm : VM)
    (hst : e.state = EmulatorState.RUNNING ∨ e.state = EmulatorState.IDLE ∨
      e.state = EmulatorState.FINISHED)
    (hvm : e.vm = some vm) (hk : (assocGet e.registers key).isSome = true) :
    e.registersGetitem arch key =
      ⟨some (vm.regRead (arch.ucRegister key)),
       assocSet e.registers key (vm.regRead (arch.ucRegister key)), true⟩ := by
  unfold Emulator.registersGetitem Emulator.get_register_value
  rw [if_pos ⟨hst, hk⟩]
  simp [hvm, assocGet_assocSet_self]

/-- The engine-run tail of the driver, successful case: `FINISHED` iff
the refreshed pc equals the end of the compiled window, else `IDLE`. -/
theorem runCore_success (arch : Architecture) (engineRun : EngineRun) (e : Emulator)
    (vm vm2 : VM) (startA stopA : Nat)
    (hst : e.state = EmulatorState.RUNNING)
    (hpck : (assocGet e.registers arch.pc).isSome = true)
    (hrun : engineRun vm startA stopA = (vm2, none)) :
    (runCore arch engineRun e vm startA stopA).err = none ∧
    (runCore arch engineRun e vm startA stopA).emu.state =
      (if vm2.regRead (arch.ucRegister arch.pc) = e.start_addr + e.code.length
       then EmulatorState.FINISHED else EmulatorState.IDLE) := by
  have hg : ({ e with vm := some vm2 } : Emulator).pcRead arch =
      ⟨some (vm2.regRead (arch.ucRegister arch.pc)),
       assocSet e.registers arch.pc (vm2.regRead (arch.ucRegister arch.pc)), true⟩ := by
    unfold Emulator.pcRead
    exact getitem_exec arch _ arch.pc vm2 (Or.inl hst) rfl hpck
  unfold runCore
  rw [hrun]
  simp only [hg]
  by_cases hpc2 : vm2.regRead (arch.ucRegister arch.pc) = e.start_addr + e.code.length
  · simp only [if_pos hpc2]
    refine ⟨trivial, ?_⟩
    exact setPlain_state _ arch _ (by simp [hst])
  · simp only [if_neg hpc2]
    refine ⟨trivial, ?_⟩
    exact setPlain_state _ arch _ (by simp [hst])

/-- The engine-run tail of the driver, faulting case: the fault popup
carries the refreshed pc and sp and the session is forced to
`FINISHED`. -/
theorem runCore_fault (arch : Architecture) (engineRun : EngineRun) (e : Emulator)
    (vm vm2 : VM) (startA stopA fc : Nat)
    (hst : e.state = EmulatorState.RUNNING)
    (hpck : (assocGet e.registers arch.pc).isSome = true)
    (hspk : (assocGet e.registers arch.sp).isSome = true)
    (hrun : engineRun vm startA stopA = (vm2, some fc)) :
    (runCore arch engineRun e vm startA stopA).err = none ∧
    (runCore arch engineRun e vm startA stopA).emu.state = EmulatorState.FINISHED ∧
    Event.runErrorPopup fc (vm2.regRead (arch.ucRegister arch.pc))
        (vm2.regRead (arch.ucRegister arch.sp)) ∈
      (runCore arch engineRun e vm startA stopA).events := by
  have hg : ({ e with vm := some vm2 } : Emulator).pcRead arch =
      ⟨some (vm2.regRead (arch.ucRegister arch.pc)),
       assocSet e.registers arch.pc (vm2.regRead (arch.ucRegister arch.pc)), true⟩ := by
    unfold Emulator.pcRead
    exact getitem_exec arch _ arch.pc vm2 (Or.inl hst) rfl hpck
  have hg2 : ({ e with vm := some vm2, registers := assocSet e.registers arch.pc (vm2.regRead (arch.ucRegister arch.pc)) } : Emulator).spRead arch =
      ⟨some (vm2.regRead (arch.ucRegister arch.sp)),
       assocSet (assocSet e.registers arch.pc (vm2.regRead (arch.ucRegister arch.pc)))
         arch.sp (vm2.regRead (arch.ucRegister arch.sp)), true⟩ := by
    unfold Emulator.spRead
    exact getitem_exec arch _ arch.sp vm2 (Or.inl hst) rfl
      (assocGet_assocSet_isSome _ _ _ _ hspk)
  unfold runCore
  rw [hrun]
  simp only [hg, hg2]
  refine ⟨trivial, ?_, ?_⟩
  · exact setPlain_state _ arch _ (by simp [hst])
  · exact List.mem_cons_of_mem _ (List.mem_cons_self _ _)

/-- C7: for every run request on an armed `RUNNING` session — the start
address being the current pc if non-zero else `start_addr`, the stop
address being the end of the compiled window in free-run mode or the
decoded instruction's end in step mode — if the engine's blocking run
primitive returns successfully, the driver transitions the session to
`FINISHED` exactly when the program counter then equals
`start_addr + length(code)`, and to `IDLE` otherwise, raising nothing. -/
theorem runner_run_success (arch : Architecture) (engineRun : EngineRun) (e : Emulator)
    (vm vm2 : VM) (startA stopA : Nat)
    (hvm : e.vm = some vm) (hst : e.state = EmulatorState.RUNNING)
    (hpck : (assocGet e.registers arch.pc).isSome = true)
    (hstart : startA = (if vm.regRead (arch.ucRegister arch.pc) ≠ 0
        then vm.regRead (arch.ucRegister arch.pc) else e.start_addr))
    (hstop : (e.use_step_mode = false ∧ stopA = e.start_addr + e.code.length) ∨
      (e.use_step_mode = true ∧ ∃ insn, nextInstruction arch
          (pySliceFrom e.code ((startA : Int) - (e.start_addr : Int))) startA = some insn ∧
        stopA = insn.endAddress))
    (hrun : engineRun vm startA stopA = (vm2, none)) :
    (runnerRun arch engineRun e).err = none ∧
    (runnerRun arch engineRun e).emu.state =
      (if vm2.regRead (arch.ucRegister arch.pc) = e.start_addr + e.code.length
       then EmulatorState.FINISHED else EmulatorState.IDLE) := by
  have hg : e.pcRead arch =
      ⟨some (vm.regRead (arch.ucRegister arch.pc)),
       assocSet e.registers arch.pc (vm.regRead (arch.ucRegister arch.pc)), true⟩ := by
    unfold Emulator.pcRead
    exact getitem_exec arch e arch.pc vm (Or.inl hst) hvm hpck
  have hir : e.is_running = true := by simp [Emulator.is_running, hst]
  unfold runnerRun
  rcases hstop with ⟨hm, hs⟩ | ⟨hm, insn, hins, hs⟩
  · rw [hs] at hrun
    have hc := runCore_success arch engineRun
      { e with registers := assocSet e.registers arch.pc (vm.regRead (arch.ucRegister arch.pc)) }
      vm vm2 startA (e.start_addr + e.code.length) hst
      (assocGet_assocSet_isSome _ _ _ _ hpck) hrun
    subst hstart
    simpa [hvm, hir, hg, hm] using hc
  · rw [hs] at hrun
    have hc := runCore_success arch engineRun
      { e with registers := assocSet e.registers arch.pc (vm.regRead (arch.ucRegister arch.pc)) }
      vm vm2 startA insn.endAddress hst
      (assocGet_assocSet_isSome _ _ _ _ hpck) hrun
    subst hstart
    simp only [hvm, hir, hg, hm] at hc ⊢
    rw [if_neg (by decide : ¬(true = false)), if_pos trivial, hins]
    exact hc

/-- C7 witness: a free run over the one-byte program ends with pc at the
window end, so the driver lands in `FINISHED`. -/
theorem runner_run_success_witness :
    (runnerRun archA engineRunToEnd emuRunning).err = none ∧
    (runnerRun archA engineRunToEnd emuRunning).emu.state = EmulatorState.FINISHED := by
  have h := runner_run_success archA engineRunToEnd emuRunning vmEmpty
    (vmEmpty.regWrite 0 0x4001) 0x4000 0x4001 rfl rfl (by decide) (by decide)
    (Or.inl ⟨rfl, by decide⟩) (by decide)
  refine ⟨h.1, ?_⟩
  rw [h.2]
  decide

/-- C8: for every run request on an armed `RUNNING` session in which the
engine raises an execution fault — in step mode or free-run mode alike —
the driver reports the fault code together with the engine's current
program counter and stack pointer in a popup and then forces the session
to `FINISHED`. -/
theorem runner_run_fault (arch : Architecture) (engineRun : EngineRun) (e : Emulator)
    (vm vm2 : VM) (startA stopA fc : Nat)
    (hvm : e.vm = some vm) (hst : e.state = EmulatorState.RUNNING)
    (hpck : (assocGet e.registers arch.pc).isSome = true)
    (hspk : (assocGet e.registers arch.sp).isSome = true)
    (hstart : startA = (if vm.regRead (arch.ucRegister arch.pc) ≠ 0
        then vm.regRead (arch.ucRegister arch.pc) else e.start_addr))
    (hstop : (e.use_step_mode = false ∧ stopA = e.start_addr + e.code.length) ∨
      (e.use_step_mode = true ∧ ∃ insn, nextInstruction arch
          (pySliceFrom e.code ((startA : Int) - (e.start_addr : Int))) startA = some insn ∧
        stopA = insn.endAddress))
    (hrun : engineRun vm startA stopA = (vm2, some fc)) :
    (runnerRun arch engineRun e).err = none ∧
    (runnerRun arch engineRun e).emu.state = EmulatorState.FINISHED ∧
    Event.runErrorPopup fc (vm2.regRead (arch.ucRegister arch.pc))
        (vm2.regRead (arch.ucRegister arch.sp)) ∈ (runnerRun arch engineRun e).events := by
  have hg : e.pcRead arch =
      ⟨some (vm.regRead (arch.ucRegister arch.pc)),
       assocSet e.registers arch.pc (vm.regRead (arch.ucRegister arch.pc)), true⟩ := by
    unfold Emulator.pcRead
    exact getitem_exec arch e arch.pc vm (Or.inl hst) hvm hpck
  have hir : e.is_running = true := by simp [Emulator.is_running, hst]
  unfold runnerRun
  rcases hstop with ⟨hm, hs⟩ | ⟨hm, insn, hins, hs⟩
  · rw [hs] at hrun
    have hc := runCore_fault arch engineRun
      { e with registers := assocSet e.registers arch.pc (vm.regRead (arch.ucRegister arch.pc)) }
      vm vm2 startA (e.start_addr + e.code.length) fc hst
      (assocGet_assocSet_isSome _ _ _ _ hpck) (assocGet_assocSet_isSome _ _ _ _ hspk) hrun
    subst hstart
    simpa [hvm, hir, hg, hm] using hc
  · rw [hs] at hrun
    have hc := runCore_fault arch engineRun
      { e with registers := assocSet e.registers arch.pc (vm.regRead (arch.ucRegister arch.pc)) }
      vm vm2 startA insn.endAddress fc hst
      (assocGet_assocSet_isSome _ _ _ _ hpck) (assocGet_assocSet_isSome _ _ _ _ hspk) hrun
    subst hstart
    simp only [hvm, hir, hg, hm] at hc ⊢
    rw [if_neg (by decide : ¬(true = false)), if_pos trivial, hins]
    exact hc

/-- C8 witness: a faulting free run reports code 10 with pc 0x4004 and
sp 0x8000 and forces `FINISHED`. -/
theorem runner_run_fault_witness :
    (runnerRun archA engineRunFault emuRunning).emu.state = EmulatorState.FINISHED ∧
    Event.runErrorPopup 10 0x4004 0x8000 ∈ (runnerRun archA engineRunFault emuRunning).events := by
  have h := runner_run_fault archA engineRunFault emuRunning vmEmpty
    ((vmEmpty.regWrite 0 0x4004).regWrite 1 0x8000) 0x4000 0x4001 10 rfl rfl
    (by decide) (by decide) (by decide) (Or.inl ⟨rfl, by decide⟩) (by decide)
  exact ⟨h.2.1, h.2.2⟩

end Cemu
